import Mathlib

/-!
Verification of the Product Siksha backend (backend/app.py): a shallow
embedding of its data model and request handlers in Lean 4, with theorems
about the question filter/sort pipeline, the timestamp parser, the
completion-toggle endpoint, authentication, signup/login, the category
slugs and the AI-feedback endpoint.

Modelling conventions:
* Python `datetime.datetime` values are a six-field structure (year, month,
  day, hour, minute, second); the backend never produces nonzero
  microseconds for parsed question timestamps.  Comparison of datetimes is
  lexicographic on the fields, as in CPython.
* Database tables are lists of records; `filter_by(...).first()` is
  `List.find?`; mutating the row an ORM query returned is replacing the
  first matching list entry.
* `datetime.utcnow()` is an abstract instant passed in as a `Nat`
  parameter wherever the code calls it.
* Python's stable `list.sort` is `List.mergeSort` (also a stable sort);
  `sort(key=k, reverse=True)` is a stable sort with the comparison
  `fun a b => !(k a < k b)`, which orders strictly larger keys first and
  keeps the original order of equal keys, exactly as CPython's
  reverse-sort does.
-/

/-- Model of a Python `datetime.datetime` value (microseconds always 0 in
this backend). -/
structure Datetime where
  year : Nat
  month : Nat
  day : Nat
  hour : Nat
  minute : Nat
  second : Nat
  deriving DecidableEq

/-- Python `calendar`-style leap-year test used by `datetime`'s validation. -/
def isLeapYear (y : Nat) : Bool :=
  y % 4 == 0 && (y % 100 != 0 || y % 400 == 0)

/-- Days in a month, as Python's `datetime` validates the `day` field. -/
def daysInMonth (y m : Nat) : Nat :=
  if m == 2 then (if isLeapYear y then 29 else 28)
  else if m == 4 || m == 6 || m == 9 || m == 11 then 30
  else 31

/-- The `datetime.datetime(...)` constructor: `None` (here `none`) when a
field is out of range (`MINYEAR = 1`, `MAXYEAR = 9999`, day bounded by the
month's length, hour below 24, minute and second below 60), otherwise the
value.  `strptime` raises `ValueError` exactly when this yields `none`. -/
def datetime_new (y m d h mi s : Nat) : Option Datetime :=
  if 1 ≤ y ∧ y ≤ 9999 ∧ 1 ≤ m ∧ m ≤ 12 ∧ 1 ≤ d ∧ d ≤ daysInMonth y m
      ∧ h ≤ 23 ∧ mi ≤ 59 ∧ s ≤ 59 then
    some ⟨y, m, d, h, mi, s⟩
  else none

/-- Value of a digit string (most significant first). -/
def digitsVal (ds : List Char) : Nat :=
  ds.foldl (fun a c => a * 10 + (c.toNat - 48)) 0

/-- Match a numeric `strptime` field: one to `maxLen` digits whose value
lies in `[lo, hi]` (the shape of CPython's `_strptime` regexes for `%m`,
`%d`, `%H`, `%M`, `%S`), returning the value and the rest of the input. -/
def matchField (maxLen lo hi : Nat) (cs : List Char) : Option (Nat × List Char) :=
  let p := cs.span (fun c => c.isDigit)
  if p.1.length = 0 ∨ maxLen < p.1.length then none
  else if lo ≤ digitsVal p.1 ∧ digitsVal p.1 ≤ hi then some (digitsVal p.1, p.2)
  else none

/-- Match `%Y`: exactly four digits (CPython's `_strptime` regex). -/
def matchYear4 (cs : List Char) : Option (Nat × List Char) :=
  let p := cs.span (fun c => c.isDigit)
  if p.1.length = 4 then some (digitsVal p.1, p.2) else none

/-- Match one literal character of the format string. -/
def matchLit (c : Char) (cs : List Char) : Option (List Char) :=
  match cs with
  | [] => none
  | d :: rest => if d = c then some rest else none

/-- Match the whitespace of a format string: CPython's `_strptime` turns a
run of whitespace in the format into the regex `\s+`, one or more
whitespace characters. -/
def matchWS (cs : List Char) : Option (List Char) :=
  let p := cs.span (fun c => c.isWhitespace)
  if p.1.length = 0 then none else some p.2

/-- `datetime.strptime(s, "%m/%d/%Y %H:%M:%S")` on a character list: the
whole input must be consumed (`strptime` rejects unconverted data), and
the parsed fields must satisfy the `datetime` constructor (`%S` admits the
leap-second values 60 and 61, which the constructor then rejects). -/
def strptime_mdy_hms (cs : List Char) : Option Datetime := do
  let (m, cs) ← matchField 2 1 12 cs
  let cs ← matchLit '/' cs
  let (d, cs) ← matchField 2 1 31 cs
  let cs ← matchLit '/' cs
  let (y, cs) ← matchYear4 cs
  let cs ← matchWS cs
  let (h, cs) ← matchField 2 0 23 cs
  let cs ← matchLit ':' cs
  let (mi, cs) ← matchField 2 0 59 cs
  let cs ← matchLit ':' cs
  let (s, cs) ← matchField 2 0 61 cs
  if cs.isEmpty then datetime_new y m d h mi s else none

/-- `datetime.strptime(s, "%m/%d/%Y")` on a character list. -/
def strptime_mdy (cs : List Char) : Option Datetime := do
  let (m, cs) ← matchField 2 1 12 cs
  let cs ← matchLit '/' cs
  let (d, cs) ← matchField 2 1 31 cs
  let cs ← matchLit '/' cs
  let (y, cs) ← matchYear4 cs
  if cs.isEmpty then datetime_new y m d 0 0 0 else none

/-- `datetime.strptime(s, "%Y-%m-%d")` on a character list. -/
def strptime_ymd (cs : List Char) : Option Datetime := do
  let (y, cs) ← matchYear4 cs
  let cs ← matchLit '-' cs
  let (m, cs) ← matchField 2 1 12 cs
  let cs ← matchLit '-' cs
  let (d, cs) ← matchField 2 1 31 cs
  if cs.isEmpty then datetime_new y m d 0 0 0 else none

/-- Python `str.strip()` (whitespace from both ends). -/
def py_strip (s : String) : String :=
  ⟨((s.data.dropWhile Char.isWhitespace).reverse.dropWhile Char.isWhitespace).reverse⟩

/-- Python `str.lower()` (ASCII case mapping suffices for this backend's
data). -/
def py_lower (s : String) : String :=
  ⟨s.data.map Char.toLower⟩

/-- `parse_timestamp` (backend/app.py): an empty (falsy) string yields
`None`; otherwise the stripped input is tried against the three formats
`%m/%d/%Y %H:%M:%S`, `%m/%d/%Y`, `%Y-%m-%d` in that order, each failure
falling through to the next, and `None` when all three fail. -/
def parse_timestamp (ts_string : String) : Option Datetime :=
  if ts_string = "" then none
  else
    match strptime_mdy_hms (py_strip ts_string).data with
    | some dt => some dt
    | none =>
      match strptime_mdy (py_strip ts_string).data with
      | some dt => some dt
      | none => strptime_ymd (py_strip ts_string).data

/-- Strict lexicographic order on equal-length lists of naturals (CPython
compares datetimes by comparing their field tuples lexicographically). -/
def lexLt : List Nat → List Nat → Bool
  | _, [] => false
  | [], _ :: _ => true
  | a :: as, b :: bs => a < b || (a == b && lexLt as bs)

/-- The field tuple CPython's `datetime` comparison inspects. -/
def dtFields (d : Datetime) : List Nat :=
  [d.year, d.month, d.day, d.hour, d.minute, d.second]

/-- Python `a < b` on datetimes. -/
def dtLt (a b : Datetime) : Bool := lexLt (dtFields a) (dtFields b)

/-- `datetime.min` = `datetime(1, 1, 1, 0, 0, 0)`. -/
def datetime_min : Datetime := ⟨1, 1, 1, 0, 0, 0⟩

theorem lexLt_irrefl : ∀ as : List Nat, lexLt as as = false := by
  intro as
  induction as with
  | nil => rfl
  | cons a as ih => simp [lexLt, ih]

theorem lexLt_trans : ∀ as bs cs : List Nat,
    lexLt as bs = true → lexLt bs cs = true → lexLt as cs = true := by
  intro as
  induction as with
  | nil =>
    intro bs cs h1 h2
    cases bs with
    | nil => exact h2
    | cons b bs => cases cs with
      | nil => simp [lexLt] at h2
      | cons c cs => rfl
  | cons a as ih =>
    intro bs cs h1 h2
    cases bs with
    | nil => simp [lexLt] at h1
    | cons b bs =>
      cases cs with
      | nil => simp [lexLt] at h2
      | cons c cs =>
        simp only [lexLt, Bool.or_eq_true, Bool.and_eq_true, decide_eq_true_eq,
          beq_iff_eq] at h1 h2 ⊢
        rcases h1 with h1 | ⟨hab, h1⟩
        · rcases h2 with h2 | ⟨hbc, h2⟩
          · exact Or.inl (Nat.lt_trans h1 h2)
          · exact Or.inl (hbc ▸ h1)
        · rcases h2 with h2 | ⟨hbc, h2⟩
          · exact Or.inl (hab ▸ h2)
          · exact Or.inr ⟨hab.trans hbc, ih bs cs h1 h2⟩

theorem lexLt_total : ∀ as bs : List Nat,
    lexLt as bs = true ∨ as = bs ∨ lexLt bs as = true := by
  intro as
  induction as with
  | nil =>
    intro bs
    cases bs with
    | nil => exact Or.inr (Or.inl rfl)
    | cons b bs => exact Or.inl rfl
  | cons a as ih =>
    intro bs
    cases bs with
    | nil => exact Or.inr (Or.inr rfl)
    | cons b bs =>
      rcases Nat.lt_trichotomy a b with hab | hab | hab
      · exact Or.inl (by simp [lexLt, hab])
      · rcases ih bs with h | h | h
        · exact Or.inl (by simp [lexLt, hab, h])
        · exact Or.inr (Or.inl (by rw [hab, h]))
        · exact Or.inr (Or.inr (by simp [lexLt, hab.symm, h]))
      · exact Or.inr (Or.inr (by simp [lexLt, hab]))

theorem lexLt_asymm : ∀ as bs : List Nat,
    lexLt as bs = true → lexLt bs as = true → False := by
  intro as bs h1 h2
  have h := lexLt_trans as bs as h1 h2
  rw [lexLt_irrefl] at h
  exact Bool.false_ne_true h

/-- `fun a b => !(dtLt a b)` ("a sorts no later than b in descending
order") is total. -/
theorem dtGe_total (a b : Datetime) : (!(dtLt a b)) = true ∨ (!(dtLt b a)) = true := by
  by_cases h : dtLt a b = true
  · right
    by_cases h2 : dtLt b a = true
    · exact absurd (lexLt_asymm _ _ h h2) (fun f => f)
    · simp [h2]
  · left
    simp [h]

/-- `fun a b => !(dtLt a b)` is transitive. -/
theorem dtGe_trans (a b c : Datetime) :
    (!(dtLt a b)) = true → (!(dtLt b c)) = true → (!(dtLt a c)) = true := by
  intro h1 h2
  simp only [Bool.not_eq_true'] at h1 h2 ⊢
  by_contra hac
  have hac' : dtLt a c = true := by
    cases h : dtLt a c
    · exact absurd h hac
    · rfl
  rcases lexLt_total (dtFields a) (dtFields b) with h | h | h
  · rw [dtLt] at h1; rw [h1] at h; exact Bool.false_ne_true h
  · have : dtLt b c = true := by rw [dtLt, ← h]; exact hac'
    rw [h2] at this; exact Bool.false_ne_true this
  · have : dtLt b c = true := lexLt_trans _ _ _ h hac'
    rw [h2] at this; exact Bool.false_ne_true this

/-- A row of the `questions` table.  Nullable text columns are modelled as
strings with `""` standing for SQL NULL as well as the empty string (the
code treats the two alike wherever it tests them: both are falsy / both
are excluded by `!= None, != ''` filters). -/
structure Question where
  id : Nat
  timestamp : String
  company : String
  question : String
  question_type : String
  interview_type : String
  comments : String
  job_title : String
  company_normalized : String
  question_category : String
  deriving DecidableEq

/-- A row of the `user_progress` table.  `completed_at` is an abstract
instant (`Nat`); `none` is SQL NULL. -/
structure UserProgress where
  user_id : Nat
  question_id : Nat
  is_completed : Bool
  completed_at : Option Nat
  deriving DecidableEq

/-- A row of the `users` table. -/
structure User where
  id : Nat
  email : String
  password_hash : String
  deriving DecidableEq

/-- The per-question dictionary `get_questions` serialises: the question's
columns together with the joined completion state.  The serialised
`completed_at` ISO string is modelled by the instant itself (`none` for
JSON null); lexicographic order on ISO-8601 strings agrees with the order
of the instants, with the empty string below all of them. -/
structure QDict where
  id : Nat
  timestamp : String
  company : String
  question : String
  question_type : String
  interview_type : String
  comments : String
  job_title : String
  company_normalized : String
  question_category : String
  is_completed : Bool
  completed_at : Option Nat
  deriving DecidableEq

/-- The slug-to-label dictionary that `get_questions` (and `get_companies`)
builds. -/
def category_map : List (String × String) :=
  [("product-design", "Product Design"),
   ("execution-metrics", "Execution & Metrics"),
   ("product-strategy", "Product Strategy"),
   ("behavioral", "Behavioral"),
   ("estimation-pricing", "Estimation & Pricing"),
   ("technical", "Technical"),
   ("other", "Other")]

/-- `category_map.get(category, category)`: an unknown slug passes through
as a literal label. -/
def mapCategory (slug : String) : String :=
  (category_map.lookup slug).getD slug

/-- Parsing of the `from_date` query parameter:
`datetime.strptime(s, "%Y-%m-%d")`, a failure silently ignored (no
filter). -/
def parse_query_date (s : String) : Option Datetime :=
  strptime_ymd s.data

/-- `to_date.replace(hour=23, minute=59, second=59)`. -/
def to_end_of_day (d : Datetime) : Datetime :=
  ⟨d.year, d.month, d.day, 23, 59, 59⟩

/-- Parsing of the `to_date` query parameter: `%Y-%m-%d`, then extended to
the end of that day. -/
def parse_to_date (s : String) : Option Datetime :=
  (strptime_ymd s.data).map to_end_of_day

/-- The per-row date filter of `get_questions` (and `get_companies`): with
no active bound every row passes; with a bound, a row whose timestamp does
not parse is dropped, and a parsed `row_date` is dropped when
`row_date < from_date` or `row_date > to_date`. -/
def passesDateFilter (from_date to_date : Option Datetime) (ts : String) : Bool :=
  if from_date.isNone && to_date.isNone then true
  else
    match parse_timestamp ts with
    | none => false
    | some row_date =>
      (match from_date with
       | some f => !(dtLt row_date f)
       | none => true)
      && (match to_date with
          | some t => !(dtLt t row_date)
          | none => true)

/-- The outer join of `get_questions`: the requesting user's progress row
for a question, if any (`user_progress` has (user_id, question_id) as
primary key, so at most one row matches). -/
def joinProgress (prog : List UserProgress) (user_id : Nat) (q : Question) :
    Option UserProgress :=
  prog.find? (fun up => up.question_id == q.id && up.user_id == user_id)

/-- The dictionary built for one joined row (`q_dict` in `get_questions`):
an absent progress row serialises as not completed with a null
`completed_at`, and a null `completed_at` stays null. -/
def mkQDict (q : Question) (up : Option UserProgress) : QDict :=
  ⟨q.id, q.timestamp, q.company, q.question, q.question_type, q.interview_type,
   q.comments, q.job_title, q.company_normalized, q.question_category,
   (match up with | some u => u.is_completed | none => false),
   (match up with | some u => u.completed_at | none => none)⟩

/-- Sort key of the completed block: the serialised `completed_at` or the
empty string (`x.get("completed_at") or ""`); the empty string sorts below
every ISO timestamp, and ISO timestamps sort chronologically, so the
comparison is the one on `Option Nat` with `none` at the bottom. -/
def completedKeyLe (a b : Option Nat) : Bool :=
  match a, b with
  | none, _ => true
  | some _, none => false
  | some s, some t => decide (s ≤ t)

/-- Sort key of the not-completed block:
`parse_timestamp(q["timestamp"]) or datetime.min`. -/
def uncompletedKey (x : QDict) : Datetime :=
  (parse_timestamp x.timestamp).getD datetime_min

/-- The rows of `get_questions` before date filtering: questions of the
category (an unknown slug having passed through literally), optionally
narrowed to one normalised company (the empty company filter means no
filter), each with the requesting user's joined progress row. -/
def selectedRows (qs : List Question) (prog : List UserProgress) (user_id : Nat)
    (category company_filter : String) : List (Question × Option UserProgress) :=
  let category_name := mapCategory category
  let selected := qs.filter (fun q => q.question_category == category_name)
  let selected :=
    if company_filter ≠ "" then
      selected.filter (fun q => q.company_normalized == company_filter)
    else selected
  selected.map (fun q => (q, joinProgress prog user_id q))

/-- `final_questions` of `get_questions`: the selected rows that pass the
date filter, serialised. -/
def final_questions (qs : List Question) (prog : List UserProgress) (user_id : Nat)
    (category company_filter from_date_str to_date_str : String) : List QDict :=
  ((selectedRows qs prog user_id category company_filter).filter
      (fun r => passesDateFilter (parse_query_date from_date_str)
        (parse_to_date to_date_str) r.1.timestamp)).map
    (fun r => mkQDict r.1 r.2)

/-- The body of `GET /api/questions/<category>`. -/
structure QuestionsResponse where
  category : String
  count : Nat
  questions : List QDict
  deriving DecidableEq

/-- `get_questions` (backend/app.py): select, join, date-filter, then
partition into completed/uncompleted, sort the completed block ascending
by completion timestamp and the uncompleted block descending by parsed
question timestamp (both sorts stable, as Python's), and concatenate with
the completed block first. -/
def get_questions (qs : List Question) (prog : List UserProgress) (user_id : Nat)
    (category company_filter from_date_str to_date_str : String) :
    QuestionsResponse :=
  let fq := final_questions qs prog user_id category company_filter
    from_date_str to_date_str
  let completed_questions := fq.filter (fun x => x.is_completed)
  let uncompleted_questions := fq.filter (fun x => !x.is_completed)
  let completed_sorted := completed_questions.mergeSort
    (fun a b => completedKeyLe a.completed_at b.completed_at)
  let uncompleted_sorted := uncompleted_questions.mergeSort
    (fun a b => !(dtLt (uncompletedKey a) (uncompletedKey b)))
  let final_list := completed_sorted ++ uncompleted_sorted
  ⟨mapCategory category, final_list.length, final_list⟩

theorem completedKeyLe_trans (a b c : Option Nat) :
    completedKeyLe a b = true → completedKeyLe b c = true →
    completedKeyLe a c = true := by
  cases a <;> cases b <;> cases c
  all_goals simp [completedKeyLe]
  all_goals omega

theorem completedKeyLe_total (a b : Option Nat) :
    (completedKeyLe a b || completedKeyLe b a) = true := by
  cases a <;> cases b
  all_goals simp [completedKeyLe]
  all_goals omega

/-- C1: for every category request by an authenticated user, the returned
question list is the completed block followed by the not-completed block:
the two blocks are (reorderings of) the completed and not-completed rows
that survive selection and date filtering, the completed block is sorted
ascending by completion timestamp (oldest first, an absent timestamp
sorting earliest), the not-completed block is sorted descending by parsed
question timestamp (newest first, an unparseable timestamp treated as the
earliest possible time `datetime.min`), and in the whole list a completed
question always precedes every uncompleted question. -/
theorem get_questions_sort_order (qs : List Question) (prog : List UserProgress)
    (user_id : Nat) (category company_filter from_date_str to_date_str : String) :
    ∃ C U,
      (get_questions qs prog user_id category company_filter from_date_str
          to_date_str).questions = C ++ U
      ∧ C.Perm ((final_questions qs prog user_id category company_filter
          from_date_str to_date_str).filter (fun x => x.is_completed))
      ∧ U.Perm ((final_questions qs prog user_id category company_filter
          from_date_str to_date_str).filter (fun x => !x.is_completed))
      ∧ (∀ x ∈ C, x.is_completed = true)
      ∧ (∀ x ∈ U, x.is_completed = false)
      ∧ C.Pairwise (fun a b => completedKeyLe a.completed_at b.completed_at = true)
      ∧ U.Pairwise (fun a b => dtLt (uncompletedKey a) (uncompletedKey b) = false)
      ∧ (get_questions qs prog user_id category company_filter from_date_str
          to_date_str).questions.Pairwise
          (fun a b => b.is_completed = true → a.is_completed = true) := by
  set fq := final_questions qs prog user_id category company_filter
    from_date_str to_date_str with hfq
  refine ⟨(fq.filter (fun x => x.is_completed)).mergeSort
      (fun a b => completedKeyLe a.completed_at b.completed_at),
    (fq.filter (fun x => !x.is_completed)).mergeSort
      (fun a b => !(dtLt (uncompletedKey a) (uncompletedKey b))), ?_,
    List.mergeSort_perm _ _, List.mergeSort_perm _ _, ?_, ?_, ?_, ?_, ?_⟩
  · rfl
  · intro x hx
    have hx' := (List.mergeSort_perm _ _).mem_iff.mp hx
    exact (List.mem_filter.mp hx').2
  · intro x hx
    have hx' := (List.mergeSort_perm _ _).mem_iff.mp hx
    have := (List.mem_filter.mp hx').2
    simpa using this
  · exact List.sorted_mergeSort
      (fun a b c => completedKeyLe_trans a.completed_at b.completed_at c.completed_at)
      (fun a b => completedKeyLe_total a.completed_at b.completed_at) _
  · have h := @List.sorted_mergeSort QDict
      (fun a b => !(dtLt (uncompletedKey a) (uncompletedKey b)))
      (fun a b c => dtGe_trans (uncompletedKey a) (uncompletedKey b) (uncompletedKey c))
      (fun a b => by
        rcases dtGe_total (uncompletedKey a) (uncompletedKey b) with h | h <;>
          simp [h])
      (fq.filter (fun x => !x.is_completed))
    exact h.imp (fun hab => by simpa using hab)
  · show ((fq.filter (fun x => x.is_completed)).mergeSort
        (fun a b => completedKeyLe a.completed_at b.completed_at)
      ++ (fq.filter (fun x => !x.is_completed)).mergeSort
        (fun a b => !(dtLt (uncompletedKey a) (uncompletedKey b)))).Pairwise
      (fun a b => b.is_completed = true → a.is_completed = true)
    rw [List.pairwise_append]
    refine ⟨?_, ?_, ?_⟩
    · refine List.pairwise_of_forall_mem_list ?_
      intro a ha b hb
      intro _
      have ha' := (List.mergeSort_perm _ _).mem_iff.mp ha
      exact (List.mem_filter.mp ha').2
    · refine List.pairwise_of_forall_mem_list ?_
      intro a ha b hb
      intro hb'
      have hb'' := (List.mergeSort_perm _ _).mem_iff.mp hb
      have := (List.mem_filter.mp hb'').2
      simp [hb'] at this
    · intro a ha b hb
      intro _
      have ha' := (List.mergeSort_perm _ _).mem_iff.mp ha
      exact (List.mem_filter.mp ha').2

/-- C2: the date-range filter is inclusive on both ends, with `to_date`
extended to end of day 23:59:59: a question passes iff no bound is active,
or its timestamp parses to `d` with `d` not strictly before `from_date`
and not strictly after the (extended) `to_date`; a question whose
timestamp fails to parse is dropped whenever a bound is active; and every
question in a `get_questions` response passed this filter. -/
theorem date_filter_inclusive :
    (∀ (from_date to_date : Option Datetime) (ts : String),
      passesDateFilter from_date to_date ts = true ↔
        ((from_date = none ∧ to_date = none) ∨
         ∃ d, parse_timestamp ts = some d
           ∧ (∀ f, from_date = some f → dtLt d f = false)
           ∧ (∀ t, to_date = some t → dtLt t d = false)))
  ∧ (∀ (s : String) (d : Datetime), strptime_ymd s.data = some d →
      parse_to_date s = some ⟨d.year, d.month, d.day, 23, 59, 59⟩)
  ∧ (∀ (qs : List Question) (prog : List UserProgress) (user_id : Nat)
      (category company_filter from_date_str to_date_str : String)
      (x : QDict),
      x ∈ (get_questions qs prog user_id category company_filter from_date_str
          to_date_str).questions →
      passesDateFilter (parse_query_date from_date_str)
        (parse_to_date to_date_str) x.timestamp = true) := by
  refine ⟨?_, ?_, ?_⟩
  · intro from_date to_date ts
    cases from_date <;> cases to_date <;> cases hp : parse_timestamp ts <;>
      simp [passesDateFilter, hp]
  · intro s d h
    simp [parse_to_date, h, to_end_of_day]
  · intro qs prog user_id category company_filter from_date_str to_date_str x hx
    have hx2 : x ∈ ((final_questions qs prog user_id category company_filter
          from_date_str to_date_str).filter (fun y => y.is_completed)).mergeSort
          (fun a b => completedKeyLe a.completed_at b.completed_at)
        ++ ((final_questions qs prog user_id category company_filter
          from_date_str to_date_str).filter (fun y => !y.is_completed)).mergeSort
          (fun a b => !(dtLt (uncompletedKey a) (uncompletedKey b))) := hx
    have hfq : x ∈ final_questions qs prog user_id category company_filter
        from_date_str to_date_str := by
      rcases List.mem_append.mp hx2 with h | h
      · exact (List.mem_filter.mp ((List.mergeSort_perm _ _).mem_iff.mp h)).1
      · exact (List.mem_filter.mp ((List.mergeSort_perm _ _).mem_iff.mp h)).1
    rw [final_questions] at hfq
    obtain ⟨r, hr, hrx⟩ := List.mem_map.mp hfq
    have hpass := (List.mem_filter.mp hr).2
    rw [← hrx]
    exact hpass

/-- C3: the timestamp parser tries the three formats in order —
`%m/%d/%Y %H:%M:%S`, then `%m/%d/%Y`, then `%Y-%m-%d` — returning the
first successful parse, and no value when none succeeds; in particular
"1/1/2023 10:00:00" and "2023-06-15" both parse and "not-a-date" does
not. -/
theorem parse_timestamp_formats :
    (∀ (s : String) (d : Datetime),
      strptime_mdy_hms (py_strip s).data = some d → parse_timestamp s = some d)
  ∧ (∀ (s : String) (d : Datetime),
      strptime_mdy_hms (py_strip s).data = none →
      strptime_mdy (py_strip s).data = some d → parse_timestamp s = some d)
  ∧ (∀ s : String,
      strptime_mdy_hms (py_strip s).data = none →
      strptime_mdy (py_strip s).data = none →
      parse_timestamp s = strptime_ymd (py_strip s).data)
  ∧ parse_timestamp "1/1/2023 10:00:00" = some ⟨2023, 1, 1, 10, 0, 0⟩
  ∧ parse_timestamp "2023-06-15" = some ⟨2023, 6, 15, 0, 0, 0⟩
  ∧ parse_timestamp "not-a-date" = none := by
  refine ⟨?_, ?_, ?_, by decide, by decide, by decide⟩
  · intro s d h
    by_cases hs : s = ""
    · subst hs
      rw [show strptime_mdy_hms (py_strip "").data = none from by decide] at h
      simp at h
    · rw [parse_timestamp, if_neg hs, h]
  · intro s d h1 h2
    by_cases hs : s = ""
    · subst hs
      rw [show strptime_mdy (py_strip "").data = none from by decide] at h2
      simp at h2
    · rw [parse_timestamp, if_neg hs, h1, h2]
  · intro s h1 h2
    by_cases hs : s = ""
    · subst hs
      rw [show strptime_ymd (py_strip "").data = none from by decide]
      decide
    · rw [parse_timestamp, if_neg hs, h1, h2]

/-- The `filter_by(user_id=..., question_id=...)` predicate of the toggle
endpoint. -/
def progressKey (user_id question_id : Nat) : UserProgress → Bool :=
  fun up => up.user_id == user_id && up.question_id == question_id

/-- Mutating the row an ORM query returned: the first matching list entry
is replaced. -/
def replace_first (l : List UserProgress) (k : UserProgress → Bool)
    (p' : UserProgress) : List UserProgress :=
  match l with
  | [] => []
  | p :: rest => if k p then p' :: rest else p :: replace_first rest k p'

/-- The JSON body and status of `POST /api/questions/<id>/toggle`. -/
structure ToggleResponse where
  status : Nat
  question_id : Nat
  is_completed : Bool
  deriving DecidableEq

/-- `toggle_question_completion` (backend/app.py): look up the requesting
user's progress row for the question; if one exists flip its flag, setting
`completed_at` to now on a flip to true and clearing it on a flip to
false; otherwise create a row with `completed=true` and a fresh
timestamp.  Returns the response and the new table (the commit is assumed
to succeed; the handler never consults the `questions` table, which is
why it takes `questions` without using it). -/
def toggle_question_completion (questions : List Question)
    (prog : List UserProgress) (user_id question_id now : Nat) :
    ToggleResponse × List UserProgress :=
  match prog.find? (progressKey user_id question_id) with
  | some p =>
    (⟨200, question_id, !p.is_completed⟩,
     replace_first prog (progressKey user_id question_id)
       ⟨p.user_id, p.question_id, !p.is_completed,
        if !p.is_completed then some now else none⟩)
  | none =>
    (⟨200, question_id, true⟩, prog ++ [⟨user_id, question_id, true, some now⟩])

/-- The completed flag the rest of the API observes for (user, question):
the row's flag, or false when there is no row. -/
def effective_completed (prog : List UserProgress) (user_id question_id : Nat) :
    Bool :=
  match prog.find? (progressKey user_id question_id) with
  | some p => p.is_completed
  | none => false

/-- The completion timestamp the rest of the API observes for
(user, question). -/
def effective_completed_at (prog : List UserProgress)
    (user_id question_id : Nat) : Option Nat :=
  match prog.find? (progressKey user_id question_id) with
  | some p => p.completed_at
  | none => none

theorem find?_replace_first (l : List UserProgress) (k : UserProgress → Bool)
    (p p' : UserProgress) (h : l.find? k = some p) (hk : k p' = true) :
    (replace_first l k p').find? k = some p' := by
  induction l with
  | nil => simp [List.find?] at h
  | cons q rest ih =>
    cases hq : k q with
    | true => simp [replace_first, hq, List.find?, hk]
    | false =>
      rw [List.find?_cons_of_neg _ (by simp [hq])] at h
      have hstep : replace_first (q :: rest) k p' = q :: replace_first rest k p' := by
        simp [replace_first, hq]
      rw [hstep, List.find?_cons_of_neg _ (by simp [hq])]
      exact ih h

theorem find?_append_singleton (l : List UserProgress) (k : UserProgress → Bool)
    (p' : UserProgress) (h : l.find? k = none) (hk : k p' = true) :
    (l ++ [p']).find? k = some p' := by
  rw [List.find?_append, h]
  simp [List.find?, hk]

theorem mem_replace_first (l : List UserProgress) (k : UserProgress → Bool)
    (p' q : UserProgress) (h : q ∈ replace_first l k p') : q ∈ l ∨ q = p' := by
  induction l with
  | nil => simp [replace_first] at h
  | cons r rest ih =>
    by_cases hr : k r = true
    · simp only [replace_first, hr, if_true] at h
      rcases List.mem_cons.mp h with h | h
      · exact Or.inr h
      · exact Or.inl (List.mem_cons_of_mem _ h)
    · have hr' : k r = false := by cases hkr : k r <;> simp_all
      have hstep : replace_first (r :: rest) k p' = r :: replace_first rest k p' := by
        simp [replace_first, hr']
      rw [hstep] at h
      rcases List.mem_cons.mp h with h | h
      · exact Or.inl (h ▸ List.mem_cons_self _ _)
      · rcases ih h with h | h
        · exact Or.inl (List.mem_cons_of_mem _ h)
        · exact Or.inr h

/-- C4: toggling twice in succession for the same (user, question) returns
the record to its original effective completed state, and when that state
is "not completed" the completion timestamp is clear afterwards. -/
theorem toggle_twice_restores (questions : List Question)
    (prog : List UserProgress) (user_id question_id t1 t2 : Nat) :
    effective_completed
        (toggle_question_completion questions
          (toggle_question_completion questions prog user_id question_id t1).2
          user_id question_id t2).2 user_id question_id
      = effective_completed prog user_id question_id
    ∧ (effective_completed prog user_id question_id = false →
        effective_completed_at
          (toggle_question_completion questions
            (toggle_question_completion questions prog user_id question_id t1).2
            user_id question_id t2).2 user_id question_id = none) := by
  cases h : prog.find? (progressKey user_id question_id) with
  | none =>
    have h1 : (toggle_question_completion questions prog user_id question_id
        t1).2 = prog ++ [⟨user_id, question_id, true, some t1⟩] := by
      simp [toggle_question_completion, h]
    have hf1 : List.find? (progressKey user_id question_id)
        (prog ++ [⟨user_id, question_id, true, some t1⟩])
        = some ⟨user_id, question_id, true, some t1⟩ :=
      find?_append_singleton prog (progressKey user_id question_id)
        ⟨user_id, question_id, true, some t1⟩ h (by simp [progressKey])
    have h2 : (toggle_question_completion questions
        (prog ++ [⟨user_id, question_id, true, some t1⟩])
        user_id question_id t2).2
        = replace_first (prog ++ [⟨user_id, question_id, true, some t1⟩])
            (progressKey user_id question_id)
            ⟨user_id, question_id, false, none⟩ := by
      simp only [toggle_question_completion, hf1, Bool.not_true,
        Bool.false_eq_true, if_false]
    have hf2 : (replace_first (prog ++ [⟨user_id, question_id, true, some t1⟩])
        (progressKey user_id question_id)
        ⟨user_id, question_id, false, none⟩).find?
        (progressKey user_id question_id)
        = some ⟨user_id, question_id, false, none⟩ :=
      find?_replace_first _ _ _ (⟨user_id, question_id, false, none⟩ :
        UserProgress) hf1 (by simp [progressKey])
    rw [h1, h2]
    refine ⟨?_, fun _ => ?_⟩
    · simp only [effective_completed, hf2, h]
    · simp only [effective_completed_at, hf2]
  | some p =>
    obtain ⟨pu, pq, pc, pca⟩ := p
    have hkp : progressKey user_id question_id ⟨pu, pq, pc, pca⟩ = true :=
      List.find?_some h
    have hkey : ∀ (b : Bool) (o : Option Nat),
        progressKey user_id question_id ⟨pu, pq, b, o⟩ = true := by
      intro b o
      simpa [progressKey] using hkp
    cases pc with
    | true =>
      have h1 : (toggle_question_completion questions prog user_id question_id
          t1).2 = replace_first prog (progressKey user_id question_id)
            ⟨pu, pq, false, none⟩ := by
        simp only [toggle_question_completion, h, Bool.not_true,
          Bool.false_eq_true, if_false]
      have hf1 : (replace_first prog (progressKey user_id question_id)
          ⟨pu, pq, false, none⟩).find? (progressKey user_id question_id)
          = some ⟨pu, pq, false, none⟩ :=
        find?_replace_first _ _ _ (⟨pu, pq, false, none⟩ : UserProgress) h
          (hkey false none)
      have h2 : (toggle_question_completion questions
          (replace_first prog (progressKey user_id question_id)
            ⟨pu, pq, false, none⟩) user_id question_id t2).2
          = replace_first (replace_first prog (progressKey user_id question_id)
              ⟨pu, pq, false, none⟩) (progressKey user_id question_id)
              ⟨pu, pq, true, some t2⟩ := by
        simp only [toggle_question_completion, hf1, Bool.not_false, if_true]
      have hf2 : (replace_first (replace_first prog
          (progressKey user_id question_id) ⟨pu, pq, false, none⟩)
          (progressKey user_id question_id) ⟨pu, pq, true, some t2⟩).find?
          (progressKey user_id question_id) = some ⟨pu, pq, true, some t2⟩ :=
        find?_replace_first _ _ _ (⟨pu, pq, true, some t2⟩ : UserProgress) hf1
          (hkey true (some t2))
      rw [h1, h2]
      refine ⟨?_, fun hfalse => ?_⟩
      · simp only [effective_completed, hf2, h]
      · simp only [effective_completed, h] at hfalse
        exact absurd hfalse (by decide)
    | false =>
      have h1 : (toggle_question_completion questions prog user_id question_id
          t1).2 = replace_first prog (progressKey user_id question_id)
            ⟨pu, pq, true, some t1⟩ := by
        simp only [toggle_question_completion, h, Bool.not_false, if_true]
      have hf1 : (replace_first prog (progressKey user_id question_id)
          ⟨pu, pq, true, some t1⟩).find? (progressKey user_id question_id)
          = some ⟨pu, pq, true, some t1⟩ :=
        find?_replace_first _ _ _ (⟨pu, pq, true, some t1⟩ : UserProgress) h
          (hkey true (some t1))
      have h2 : (toggle_question_completion questions
          (replace_first prog (progressKey user_id question_id)
            ⟨pu, pq, true, some t1⟩) user_id question_id t2).2
          = replace_first (replace_first prog (progressKey user_id question_id)
              ⟨pu, pq, true, some t1⟩) (progressKey user_id question_id)
              ⟨pu, pq, false, none⟩ := by
        simp only [toggle_question_completion, hf1, Bool.not_true,
          Bool.false_eq_true, if_false]
      have hf2 : (replace_first (replace_first prog
          (progressKey user_id question_id) ⟨pu, pq, true, some t1⟩)
          (progressKey user_id question_id) ⟨pu, pq, false, none⟩).find?
          (progressKey user_id question_id) = some ⟨pu, pq, false, none⟩ :=
        find?_replace_first _ _ _ (⟨pu, pq, false, none⟩ : UserProgress) hf1
          (hkey false none)
      rw [h1, h2]
      refine ⟨?_, fun _ => ?_⟩
      · simp only [effective_completed, hf2, h]
      · simp only [effective_completed_at, hf2]

/-- The CompletionRecord invariant: a row that is not completed has no
completion timestamp, and a completed row has one. -/
def progress_invariant (prog : List UserProgress) : Prop :=
  ∀ p ∈ prog, (p.is_completed = false → p.completed_at = none)
    ∧ (p.is_completed = true → ∃ t, p.completed_at = some t)

/-- The progress tables reachable through the toggle endpoint, starting
from the empty table. -/
inductive ReachableProgress : List UserProgress → Prop where
  | init : ReachableProgress []
  | toggle (questions : List Question) (prog : List UserProgress)
      (user_id question_id now : Nat) : ReachableProgress prog →
      ReachableProgress
        (toggle_question_completion questions prog user_id question_id now).2

theorem toggle_preserves_invariant (questions : List Question)
    (prog : List UserProgress) (user_id question_id now : Nat)
    (h : progress_invariant prog) :
    progress_invariant
      (toggle_question_completion questions prog user_id question_id now).2 := by
  cases hf : prog.find? (progressKey user_id question_id) with
  | none =>
    have h1 : (toggle_question_completion questions prog user_id question_id
        now).2 = prog ++ [⟨user_id, question_id, true, some now⟩] := by
      simp [toggle_question_completion, hf]
    rw [h1]
    intro p hp
    rcases List.mem_append.mp hp with hp | hp
    · exact h p hp
    · rcases List.mem_singleton.mp hp with rfl
      exact ⟨fun hc => by simp at hc, fun _ => ⟨now, rfl⟩⟩
  | some q =>
    obtain ⟨qu, qq, qc, qa⟩ := q
    cases qc with
    | true =>
      have h1 : (toggle_question_completion questions prog user_id question_id
          now).2 = replace_first prog (progressKey user_id question_id)
            ⟨qu, qq, false, none⟩ := by
        simp only [toggle_question_completion, hf, Bool.not_true,
          Bool.false_eq_true, if_false]
      rw [h1]
      intro p hp
      rcases mem_replace_first _ _ _ _ hp with hp | rfl
      · exact h p hp
      · exact ⟨fun _ => rfl, fun hc => by simp at hc⟩
    | false =>
      have h1 : (toggle_question_completion questions prog user_id question_id
          now).2 = replace_first prog (progressKey user_id question_id)
            ⟨qu, qq, true, some now⟩ := by
        simp only [toggle_question_completion, hf, Bool.not_false, if_true]
      rw [h1]
      intro p hp
      rcases mem_replace_first _ _ _ _ hp with hp | rfl
      · exact h p hp
      · exact ⟨fun hc => by simp at hc, fun _ => ⟨now, rfl⟩⟩

/-- C5: every progress table reachable through the toggle operation
satisfies the invariant (not completed implies no completion timestamp,
completed implies one); both branches of the toggle preserve the
invariant; and just after any toggle, the touched (user, question) record
carries the instant of the transition whenever it ended up completed. -/
theorem completion_record_invariant :
    (∀ prog, ReachableProgress prog → progress_invariant prog)
  ∧ (∀ (questions : List Question) (prog : List UserProgress)
      (user_id question_id now : Nat), progress_invariant prog →
      progress_invariant
        (toggle_question_completion questions prog user_id question_id now).2)
  ∧ (∀ (questions : List Question) (prog : List UserProgress)
      (user_id question_id now : Nat),
      effective_completed
          (toggle_question_completion questions prog user_id question_id now).2
          user_id question_id = true →
      effective_completed_at
          (toggle_question_completion questions prog user_id question_id now).2
          user_id question_id = some now) := by
  refine ⟨?_, toggle_preserves_invariant, ?_⟩
  · intro prog hreach
    induction hreach with
    | init => intro p hp; simp at hp
    | toggle questions prog user_id question_id now _ ih =>
      exact toggle_preserves_invariant questions prog user_id question_id now ih
  · intro questions prog user_id question_id now
    cases hf : prog.find? (progressKey user_id question_id) with
    | none =>
      have h1 : (toggle_question_completion questions prog user_id question_id
          now).2 = prog ++ [⟨user_id, question_id, true, some now⟩] := by
        simp [toggle_question_completion, hf]
      have hf1 : List.find? (progressKey user_id question_id)
          (prog ++ [⟨user_id, question_id, true, some now⟩])
          = some ⟨user_id, question_id, true, some now⟩ :=
        find?_append_singleton prog (progressKey user_id question_id)
          ⟨user_id, question_id, true, some now⟩ hf (by simp [progressKey])
      rw [h1]
      intro _
      simp only [effective_completed_at, hf1]
    | some q =>
      obtain ⟨qu, qq, qc, qa⟩ := q
      have hkp : progressKey user_id question_id ⟨qu, qq, qc, qa⟩ = true :=
        List.find?_some hf
      have hkey : ∀ (b : Bool) (o : Option Nat),
          progressKey user_id question_id ⟨qu, qq, b, o⟩ = true := by
        intro b o
        simpa [progressKey] using hkp
      cases qc with
      | true =>
        have h1 : (toggle_question_completion questions prog user_id
            question_id now).2 = replace_first prog
              (progressKey user_id question_id) ⟨qu, qq, false, none⟩ := by
          simp only [toggle_question_completion, hf, Bool.not_true,
            Bool.false_eq_true, if_false]
        have hf1 : List.find? (progressKey user_id question_id)
            (replace_first prog (progressKey user_id question_id)
              ⟨qu, qq, false, none⟩) = some ⟨qu, qq, false, none⟩ :=
          find?_replace_first _ _ _ (⟨qu, qq, false, none⟩ : UserProgress) hf
            (hkey false none)
        rw [h1]
        intro hc
        simp only [effective_completed, hf1] at hc
        exact absurd hc (by decide)
      | false =>
        have h1 : (toggle_question_completion questions prog user_id
            question_id now).2 = replace_first prog
              (progressKey user_id question_id) ⟨qu, qq, true, some now⟩ := by
          simp only [toggle_question_completion, hf, Bool.not_false, if_true]
        have hf1 : List.find? (progressKey user_id question_id)
            (replace_first prog (progressKey user_id question_id)
              ⟨qu, qq, true, some now⟩) = some ⟨qu, qq, true, some now⟩ :=
          find?_replace_first _ _ _ (⟨qu, qq, true, some now⟩ : UserProgress) hf
            (hkey true (some now))
        rw [h1]
        intro _
        simp only [effective_completed_at, hf1]

/-- C10: the toggle endpoint never depends on the `questions` table, so an
unknown question id is never a not-found error: the handler behaves
identically for any two questions tables, always answers with status 200,
and when no progress row exists (in particular for an id no Question row
carries) it creates a row with completed=true and a fresh timestamp and
reports completed=true. -/
theorem toggle_unknown_question (questions questions2 : List Question)
    (prog : List UserProgress) (user_id question_id now : Nat) :
    toggle_question_completion questions prog user_id question_id now
      = toggle_question_completion questions2 prog user_id question_id now
    ∧ (toggle_question_completion questions prog user_id question_id
        now).1.status = 200
    ∧ (prog.find? (progressKey user_id question_id) = none →
        (toggle_question_completion questions prog user_id question_id now).1
          = ⟨200, question_id, true⟩
        ∧ (toggle_question_completion questions prog user_id question_id now).2
          = prog ++ [⟨user_id, question_id, true, some now⟩]) := by
  refine ⟨rfl, ?_, ?_⟩
  · cases hf : prog.find? (progressKey user_id question_id) with
    | none => simp [toggle_question_completion, hf]
    | some p => simp [toggle_question_completion, hf]
  · intro hf
    constructor
    · simp [toggle_question_completion, hf]
    · simp [toggle_question_completion, hf]

/-- The claims a backend token encodes: `user_id`, `email` and the `exp`
expiry instant. -/
structure TokenPayload where
  user_id : Nat
  email : String
  exp : Nat
  deriving DecidableEq

/-- A bearer token as `jwt.decode` classifies it: either not a well-formed
JWT at all, or a payload with a flag saying whether its signature
verifies under the server secret. -/
inductive JwtToken where
  | malformed : JwtToken
  | signed (payload : TokenPayload) (sigOk : Bool) : JwtToken
  deriving DecidableEq

/-- What `jwt.decode(token, SECRET_KEY, algorithms=["HS256"])` raises or
returns. -/
inductive DecodeResult where
  | ok (payload : TokenPayload) : DecodeResult
  | expired : DecodeResult
  | invalid : DecodeResult
  deriving DecidableEq

/-- PyJWT's decode: a malformed token or a bad signature raises
`InvalidTokenError` (the signature is checked before any claim); a
well-signed token whose `exp` has passed raises `ExpiredSignatureError`
(a subclass of `InvalidTokenError`, but the handler catches it first);
otherwise the payload is returned. -/
def jwt_decode (tok : JwtToken) (now : Nat) : DecodeResult :=
  match tok with
  | .malformed => .invalid
  | .signed payload sigOk =>
    if sigOk = false then .invalid
    else if payload.exp ≤ now then .expired
    else .ok payload

/-- `jwt.encode({user_id, email, exp: utcnow() + timedelta(hours=24)},
SECRET_KEY, algorithm="HS256")`: a well-formed, well-signed token whose
expiry is 24 hours (86400 seconds) after issuance.  Both `login` and
`signup` issue tokens this way. -/
def issueToken (user_id : Nat) (email : String) (now : Nat) : JwtToken :=
  .signed ⟨user_id, email, now + 86400⟩ true

/-- Outcome of the `token_required` decorator: a 401 error response, or
the request proceeds with `g.user_id` / `g.user_email` set. -/
inductive AuthOutcome where
  | fail (status : Nat) (error : String) : AuthOutcome
  | proceed (user_id : Nat) (user_email : String) : AuthOutcome
  deriving DecidableEq

/-- `token_required` (backend/app.py): an absent `Authorization` header
(or one that strips to the empty token, modelled as `none`) yields 401
"Token required"; then `jwt.decode`'s `ExpiredSignatureError` yields 401
"Token expired", its `InvalidTokenError` yields 401 "Invalid token", and
otherwise the wrapped view runs with the payload's identity. -/
def token_required (credential : Option JwtToken) (now : Nat) : AuthOutcome :=
  match credential with
  | none => .fail 401 "Token required"
  | some tok =>
    match jwt_decode tok now with
    | .expired => .fail 401 "Token expired"
    | .invalid => .fail 401 "Invalid token"
    | .ok payload => .proceed payload.user_id payload.email

/-- C6: authentication failure is a 401 distinguishing the three cases —
no token yields "Token required", a well-signed token whose expiry has
passed yields "Token expired", and a malformed token or bad signature
yields "Invalid token"; a token the backend issued more than 24 hours ago
is reported expired, never invalid; and a fresh issued token proceeds. -/
theorem token_required_cases :
    (∀ now : Nat, token_required none now = .fail 401 "Token required")
  ∧ (∀ (now : Nat) (p : TokenPayload),
      token_required (some (.signed p false)) now = .fail 401 "Invalid token")
  ∧ (∀ now : Nat,
      token_required (some .malformed) now = .fail 401 "Invalid token")
  ∧ (∀ (now : Nat) (p : TokenPayload), p.exp ≤ now →
      token_required (some (.signed p true)) now = .fail 401 "Token expired")
  ∧ (∀ (now user_id issued : Nat) (email : String), issued + 86400 ≤ now →
      token_required (some (issueToken user_id email issued)) now
        = .fail 401 "Token expired")
  ∧ (∀ (now user_id issued : Nat) (email : String), now < issued + 86400 →
      token_required (some (issueToken user_id email issued)) now
        = .proceed user_id email) := by
  refine ⟨fun now => rfl, fun now p => rfl, fun now => rfl, ?_, ?_, ?_⟩
  · intro now p hexp
    simp [token_required, jwt_decode, hexp]
  · intro now user_id issued email hexp
    simp [token_required, issueToken, jwt_decode, hexp]
  · intro now user_id issued email hexp
    simp [token_required, issueToken, jwt_decode, Nat.not_le.mpr hexp]

/-- UTF-8 encoding of one code point (what Python's `str.encode()` does
per character). -/
def utf8_encode_char (c : Nat) : List Nat :=
  if c < 0x80 then [c]
  else if c < 0x800 then
    [0xC0 + c / 0x40, 0x80 + c % 0x40]
  else if c < 0x10000 then
    [0xE0 + c / 0x1000, 0x80 + (c / 0x40) % 0x40, 0x80 + c % 0x40]
  else
    [0xF0 + c / 0x40000, 0x80 + (c / 0x1000) % 0x40, 0x80 + (c / 0x40) % 0x40,
     0x80 + c % 0x40]

/-- `password.encode()`: the UTF-8 bytes of a string. -/
def string_bytes (s : String) : List Nat :=
  (s.data.map (fun c => utf8_encode_char c.toNat)).flatten

/-- Reduction modulo 2^32 (SHA-256 works on 32-bit words). -/
def w32 (n : Nat) : Nat := n % 4294967296

/-- Right rotation of a 32-bit word. -/
def rotr (n x : Nat) : Nat := w32 ((x >>> n) ||| (x <<< (32 - n)))

/-- The 64 SHA-256 round constants. -/
def sha256_k : List Nat :=
  [1116352408, 1899447441, 3049323471, 3921009573, 961987163,
   1508970993, 2453635748, 2870763221, 3624381080, 310598401,
   607225278, 1426881987, 1925078388, 2162078206, 2614888103,
   3248222580, 3835390401, 4022224774, 264347078, 604807628,
   770255983, 1249150122, 1555081692, 1996064986, 2554220882,
   2821834349, 2952996808, 3210313671, 3336571891, 3584528711,
   113926993, 338241895, 666307205, 773529912, 1294757372,
   1396182291, 1695183700, 1986661051, 2177026350, 2456956037,
   2730485921, 2820302411, 3259730800, 3345764771, 3516065817,
   3600352804, 4094571909, 275423344, 430227734, 506948616,
   659060556, 883997877, 958139571, 1322822218, 1537002063,
   1747873779, 1955562222, 2024104815, 2227730452, 2361852424,
   2428436474, 2756734187, 3204031479, 3329325298]

/-- The SHA-256 initial hash value. -/
def sha256_h0 : List Nat :=
  [1779033703, 3144134277, 1013904242, 2773480762,
   1359893119, 2600822924, 528734635, 1541459225]

/-- Big-endian byte rendering of `n` on `k` bytes. -/
def nat_be_bytes (k n : Nat) : List Nat :=
  (List.range k).map (fun i => n / 256 ^ (k - 1 - i) % 256)

/-- SHA-256 padding: append 0x80, zeros to 56 mod 64, and the bit length
on eight big-endian bytes. -/
def sha256_pad (msg : List Nat) : List Nat :=
  msg ++ [0x80] ++ List.replicate ((119 - msg.length % 64) % 64) 0
    ++ nat_be_bytes 8 (msg.length * 8)

/-- Big-endian 32-bit words of a byte list. -/
def bytes_to_words : List Nat → List Nat
  | b0 :: b1 :: b2 :: b3 :: rest =>
    (((b0 * 256 + b1) * 256 + b2) * 256 + b3) :: bytes_to_words rest
  | _ => []

/-- Extend a 16-word block schedule by `steps` further words. -/
def sha256_extend (ws : List Nat) : Nat → List Nat
  | 0 => ws
  | k + 1 =>
    let cur := sha256_extend ws k
    let n := cur.length
    let w2 := cur.getD (n - 2) 0
    let w7 := cur.getD (n - 7) 0
    let w15 := cur.getD (n - 15) 0
    let w16 := cur.getD (n - 16) 0
    let s0 := w32 ((rotr 7 w15) ^^^ (rotr 18 w15) ^^^ (w15 >>> 3))
    let s1 := w32 ((rotr 17 w2) ^^^ (rotr 19 w2) ^^^ (w2 >>> 10))
    cur ++ [w32 (w16 + s0 + w7 + s1)]

/-- One SHA-256 compression round on the state `[a,b,c,d,e,f,g,h]`. -/
def sha256_round (ws : List Nat) (st : List Nat) (i : Nat) : List Nat :=
  match st with
  | [a, b, c, d, e, f, g, hh] =>
    let s1 := w32 ((rotr 6 e) ^^^ (rotr 11 e) ^^^ (rotr 25 e))
    let ch := w32 ((e &&& f) ^^^ ((4294967295 ^^^ e) &&& g))
    let t1 := w32 (hh + s1 + ch + sha256_k.getD i 0 + ws.getD i 0)
    let s0 := w32 ((rotr 2 a) ^^^ (rotr 13 a) ^^^ (rotr 22 a))
    let mj := w32 ((a &&& b) ^^^ (a &&& c) ^^^ (b &&& c))
    [w32 (t1 + w32 (s0 + mj)), a, b, c, w32 (d + t1), e, f, g]
  | st => st

/-- SHA-256 compression of one 64-byte block into the running hash. -/
def sha256_compress (h : List Nat) (block : List Nat) : List Nat :=
  let ws := sha256_extend (bytes_to_words block) 48
  let fin := (List.range 64).foldl (sha256_round ws) h
  (h.zip fin).map (fun p => w32 (p.1 + p.2))

/-- The 64-byte chunks of a byte list. -/
def chunk64 (l : List Nat) : List (List Nat) :=
  if h : l = [] then []
  else l.take 64 :: chunk64 (l.drop 64)
  termination_by l.length
  decreasing_by
    simp [List.length_drop]
    cases l with
    | nil => exact absurd rfl h
    | cons a l => simp

/-- The eight hash words of a byte message. -/
def sha256_words (msg : List Nat) : List Nat :=
  (chunk64 (sha256_pad msg)).foldl sha256_compress sha256_h0

/-- A lowercase hexadecimal digit. -/
def hex_digit (n : Nat) : Char :=
  if n < 10 then Char.ofNat (48 + n) else Char.ofNat (87 + n)

/-- Lowercase hexadecimal rendering of a 32-bit word. -/
def word_hex (w : Nat) : List Char :=
  (List.range 8).map (fun i => hex_digit (w / 16 ^ (7 - i) % 16))

/-- `hashlib.sha256(bytes).hexdigest()`. -/
def sha256_hexdigest (msg : List Nat) : String :=
  ⟨((sha256_words msg).map word_hex).flatten⟩

/-- `hash_password` (backend/app.py): the lowercase hex SHA-256 digest of
the UTF-8 encoded password.  A deterministic function of the password. -/
def hash_password (password : String) : String :=
  sha256_hexdigest (string_bytes password)

/-- Outcome of `POST /api/signup`: 201 with token and user, or 400. -/
inductive SignupResult where
  | created (token : JwtToken) (user_id : Nat) (email : String) : SignupResult
  | badRequest (error : String) : SignupResult
  deriving DecidableEq

/-- Autoincrement primary key for a fresh `users` row. -/
def next_user_id (users : List User) : Nat := users.length + 1

/-- `signup` (backend/app.py): the email is stripped and lowercased; a
missing email or password is a 400, a password shorter than 6 characters
is a 400, an already registered email is a 400; otherwise the user is
stored with the hashed password and a fresh token is issued (auto-login),
status 201. -/
def signup (users : List User) (email_raw password : String) (now : Nat) :
    SignupResult × List User :=
  let email := py_lower (py_strip email_raw)
  if email = "" ∨ password = "" then
    (.badRequest "Email and password required", users)
  else if password.length < 6 then
    (.badRequest "Password must be at least 6 characters", users)
  else if (users.find? (fun u => u.email == email)).isSome then
    (.badRequest "Email already registered", users)
  else
    (.created (issueToken (next_user_id users) email now) (next_user_id users)
      email,
     users ++ [⟨next_user_id users, email, hash_password password⟩])

/-- Outcome of `POST /api/login`: a token and user, 400 on missing
fields, or 401 on mismatched credentials. -/
inductive LoginResult where
  | ok (token : JwtToken) (user_id : Nat) (email : String) : LoginResult
  | badRequest (error : String) : LoginResult
  | unauthorized (error : String) : LoginResult
  deriving DecidableEq

/-- `login` (backend/app.py): the email is stripped and lowercased, the
user row is looked up by email and hashed password equality, and a token
is issued on success. -/
def login (users : List User) (email_raw password : String) (now : Nat) :
    LoginResult :=
  let email := py_lower (py_strip email_raw)
  if email = "" ∨ password = "" then .badRequest "Email and password required"
  else
    match users.find? (fun u =>
        u.email == email && u.password_hash == hash_password password) with
    | none => .unauthorized "Invalid credentials"
    | some u => .ok (issueToken u.id u.email now) u.id u.email

/-- C7: a signup with a nonempty (normalised) email that is not yet
registered and a password of length at least 6 succeeds — it stores the
user with the deterministic password hash and returns a token and the
user — and a subsequent login with the same raw email and password on the
resulting table succeeds with a token (never a 401). -/
theorem signup_then_login (users : List User) (email password : String)
    (t1 t2 : Nat)
    (hemail : py_lower (py_strip email) ≠ "")
    (hpw : 6 ≤ password.length)
    (hfresh : users.find? (fun u => u.email == py_lower (py_strip email))
      = none) :
    signup users email password t1
      = (.created (issueToken (users.length + 1) (py_lower (py_strip email)) t1)
          (users.length + 1) (py_lower (py_strip email)),
         users ++ [⟨users.length + 1, py_lower (py_strip email),
           hash_password password⟩])
    ∧ login (users ++ [⟨users.length + 1, py_lower (py_strip email),
          hash_password password⟩]) email password t2
      = .ok (issueToken (users.length + 1) (py_lower (py_strip email)) t2)
          (users.length + 1) (py_lower (py_strip email)) := by
  have hpassword : password ≠ "" := by
    intro hcon
    rw [hcon] at hpw
    simp at hpw
  have hor : ¬(py_lower (py_strip email) = "" ∨ password = "") := by
    intro hcon
    rcases hcon with hcon | hcon
    · exact hemail hcon
    · exact hpassword hcon
  constructor
  · simp only [signup]
    rw [if_neg hor, if_neg (Nat.not_lt.mpr hpw)]
    rw [if_neg (by rw [hfresh]; simp)]
    exact rfl
  · simp only [login]
    rw [if_neg hor]
    have hnone : users.find? (fun u => u.email == py_lower (py_strip email)
        && u.password_hash == hash_password password) = none := by
      rw [List.find?_eq_none]
      intro u hu hcon
      have hcon' := (Bool.and_eq_true _ _).mp hcon
      exact absurd hcon'.1 (by
        have := List.find?_eq_none.mp hfresh u hu
        simpa using this)
    rw [List.find?_append, hnone]
    simp [List.find?]

/-- Witness for C7 at a concrete input: an empty user table, the email
"alice@example.com" and the password "hunter2". -/
theorem signup_then_login_witness :
    signup [] "alice@example.com" "hunter2" 0
      = (.created (issueToken 1 (py_lower (py_strip "alice@example.com")) 0) 1
          (py_lower (py_strip "alice@example.com")),
         [⟨1, py_lower (py_strip "alice@example.com"),
           hash_password "hunter2"⟩])
    ∧ login [⟨1, py_lower (py_strip "alice@example.com"),
          hash_password "hunter2"⟩] "alice@example.com" "hunter2" 7
      = .ok (issueToken 1 (py_lower (py_strip "alice@example.com")) 7) 1
          (py_lower (py_strip "alice@example.com")) :=
  signup_then_login [] "alice@example.com" "hunter2" 0 7 (by decide)
    (by decide) rfl

/-- An attached file in a feedback request: name, declared media type,
base64 payload. -/
structure AttachedFile where
  name : String
  type : String
  base64 : String
  deriving DecidableEq

/-- Outcome of `POST /api/feedback`: a 400, the demo-mode feedback (model
"demo"), or a call to the external Gemini service carrying the assembled
content parts and the image attachments. -/
inductive FeedbackResult where
  | badRequest (error : String) : FeedbackResult
  | demo (feedback : String) (model : String) : FeedbackResult
  | geminiCall (content_parts : List String) (image_count : Nat) : FeedbackResult
  deriving DecidableEq

/-- The demo-mode message up to the file mention (the f-string's text with
`question[:100]` interpolated). -/
def demo_feedback_head (question : String) : String :=
  "**AI Feedback** (Demo Mode - No API Key)\n\n"
  ++ "Thank you for your message! Here's some structured feedback:\n\n"
  ++ "**Your Question Context:**\nThis is about: " ++ question.take 100
  ++ "...\n\n**Strengths:**\n- You're actively practicing PM interview questions\n"
  ++ "- Seeking feedback shows growth mindset\n\n"
  ++ "**Guidance:**\n- Structure your answer using frameworks like CIRCLES, STAR, or RICE\n"
  ++ "- Include specific metrics and success measures\n"
  ++ "- Consider multiple stakeholder perspectives\n\n"
  ++ "**Next Steps:**\n- Try answering the question before asking for feedback\n"
  ++ "- Focus on quantifiable outcomes"

/-- `file_mention`: empty for no files, otherwise a note with the file
count. -/
def demo_file_mention (files : List AttachedFile) : String :=
  if files.isEmpty then ""
  else "\n\n*Note: You attached " ++ toString files.length
    ++ " file(s). In demo mode, file analysis is not available.*"

/-- The closing line of the demo-mode message. -/
def demo_suffix : String :=
  "\n\n*Note: Connect your Google Gemini API key for personalized AI feedback.*"

/-- The whole demo-mode feedback message. -/
def demo_feedback (question : String) (files : List AttachedFile) : String :=
  demo_feedback_head question ++ demo_file_mention files ++ demo_suffix

/-- The coach persona prompt sent to Gemini. -/
def gemini_system_prompt : String :=
  "You are an expert PM interview coach having a conversation with a candidate. \n"
  ++ "Your role is to help them prepare for product management interviews through constructive, actionable feedback.\n\n"
  ++ "Be conversational and encouraging but honest. Adapt your response to what the candidate asks:\n"
  ++ "- If they share an answer, provide structured feedback (Strengths, Areas for Improvement, Suggested Framework)\n"
  ++ "- If they ask a clarifying question, answer it directly\n"
  ++ "- If they share a diagram or image, analyze it and provide feedback on their visual communication\n"
  ++ "- Keep responses focused and not too long\n\n"
  ++ "Remember the context: This is about the PM interview question provided."

/-- `get_ai_feedback` (backend/app.py): an empty question is a 400; with
no `GEMINI_API_KEY` configured the fixed demo-mode message (model "demo")
is returned without contacting the external service; otherwise the
context (persona, question, answer or a "(No answer provided yet)"
marker, and the candidate's request) is assembled and sent to Gemini with
the image-typed attachments. -/
def get_ai_feedback (gemini_api_key question answer : String)
    (prompt? : Option String) (files : List AttachedFile) : FeedbackResult :=
  let prompt := prompt?.getD "Please analyze my answer and provide feedback."
  if question = "" then .badRequest "Question is required"
  else
    let user_request :=
      if py_strip answer = "" then
        "I haven't written an answer yet. " ++ prompt
          ++ " Please provide guidance on how to approach this question."
      else if prompt ≠ "" then prompt
      else "Please analyze my answer and provide feedback."
    if gemini_api_key = "" then .demo (demo_feedback question files) "demo"
    else
      let context := gemini_system_prompt ++ "\n\n**Interview Question:** "
        ++ question ++ "\n\n**Candidate's Answer/Message:** "
        ++ (if answer ≠ "" then answer else "(No answer provided yet)")
        ++ "\n\n**Candidate's Request:** " ++ user_request ++ "\n"
      .geminiCall [context, "\nPlease provide your response:"]
        (files.filter (fun f => "image/".data.isPrefixOf f.type.data)).length

/-- C8: with no external AI credential configured and a nonempty question,
the feedback endpoint returns the demo-mode message (model "demo"), never
a call to the external service, and when files are attached the message
contains their count. -/
theorem feedback_demo_mode (question answer : String) (prompt? : Option String)
    (files : List AttachedFile) (hq : question ≠ "") :
    get_ai_feedback "" question answer prompt? files
      = .demo (demo_feedback question files) "demo"
    ∧ (files ≠ [] → ∃ pre post, demo_feedback question files
        = pre ++ (toString files.length ++ post)) := by
  constructor
  · simp [get_ai_feedback, hq]
  · intro hfs
    refine ⟨demo_feedback_head question ++ "\n\n*Note: You attached ",
      " file(s). In demo mode, file analysis is not available.*"
        ++ demo_suffix, ?_⟩
    have hne : files.isEmpty = false := by
      cases files with
      | nil => exact absurd rfl hfs
      | cons f fs => rfl
    simp [demo_feedback, demo_file_mention, hne, String.append_assoc]

/-- Witness for C8 at a concrete input: a nonempty question and one
attached file. -/
theorem feedback_demo_mode_witness :
    get_ai_feedback "" "Estimate the market for smart fridges" "" none
        [⟨"diagram.png", "image/png", "QUJD"⟩]
      = .demo (demo_feedback "Estimate the market for smart fridges"
          [⟨"diagram.png", "image/png", "QUJD"⟩]) "demo"
    ∧ ([(⟨"diagram.png", "image/png", "QUJD"⟩ : AttachedFile)] ≠ [] →
        ∃ pre post, demo_feedback "Estimate the market for smart fridges"
            [⟨"diagram.png", "image/png", "QUJD"⟩]
          = pre ++ (toString
              ([(⟨"diagram.png", "image/png", "QUJD"⟩ : AttachedFile)]).length
              ++ post)) :=
  feedback_demo_mode "Estimate the market for smart fridges" "" none
    [⟨"diagram.png", "image/png", "QUJD"⟩] (by decide)

/-- Python `str.replace(pat, rep)` on character lists (for nonempty `pat`;
structural fuel makes the definition kernel-reducible).  Scans left to
right, replacing each non-overlapping occurrence of `pat`. -/
def replace_aux (pat rep : List Char) : Nat → List Char → List Char
  | 0, l => l
  | _ + 1, [] => []
  | fuel + 1, c :: rest =>
    if pat ≠ [] ∧ pat.isPrefixOf (c :: rest) then
      rep ++ replace_aux pat rep fuel ((c :: rest).drop pat.length)
    else c :: replace_aux pat rep fuel rest

/-- Python `s.replace(pat, rep)` for a nonempty pattern. -/
def py_replace (s pat rep : String) : String :=
  ⟨replace_aux pat.data rep.data s.data.length s.data⟩

/-- The slug `get_categories` builds:
`category_name.lower().replace(" & ", "-").replace(" ", "-")`. -/
def slug_of (label : String) : String :=
  py_replace (py_replace (py_lower label) " & " "-") " " "-"

/-- The seven fixed category labels of the data model. -/
def fixed_category_labels : List String :=
  ["Product Design", "Execution & Metrics", "Product Strategy", "Behavioral",
   "Estimation & Pricing", "Technical", "Other"]

/-- One row of the `GET /api/categories` response. -/
structure CategoryEntry where
  name : String
  path : String
  count : Nat
  deriving DecidableEq

/-- `get_categories` (backend/app.py): group the questions by their
non-NULL, non-empty category label, count each group, attach the slug and
order by count descending (a stable sort; SQL leaves ties unspecified). -/
def get_categories (qs : List Question) : List CategoryEntry :=
  let labels := ((qs.map (fun q => q.question_category)).filter
    (fun c => c ≠ "")).dedup
  let entries := labels.map (fun c =>
    (⟨c, slug_of c, (qs.filter (fun q => q.question_category == c)).length⟩ :
      CategoryEntry))
  entries.mergeSort (fun a b => decide (b.count ≤ a.count))

/-- C9 (amended): every entry of `GET /api/categories` carries the slug
obtained by lowercasing the label, replacing " & " (the ampersand with its
surrounding spaces) by a single hyphen and the remaining spaces by
hyphens, together with the count of questions carrying that label; and
for each of the seven fixed labels this slug is exactly the slug the
questions endpoint maps back to that label. -/
theorem get_categories_slugs :
    (∀ (qs : List Question), ∀ e ∈ get_categories qs,
        e.path = slug_of e.name
      ∧ e.name ≠ ""
      ∧ e.count = (qs.filter (fun q => q.question_category == e.name)).length)
  ∧ (∀ label ∈ fixed_category_labels,
      category_map.lookup (slug_of label) = some label) := by
  constructor
  · intro qs e he
    have he' := (List.mergeSort_perm _ _).mem_iff.mp he
    obtain ⟨c, hc, hce⟩ := List.mem_map.mp he'
    have hcne : c ≠ "" := by
      have := List.mem_filter.mp (List.mem_dedup.mp hc)
      simpa using this.2
    subst hce
    exact ⟨rfl, hcne, rfl⟩
  · decide

/-- Counterexample to C9 as stated: reading "replacing spaces with hyphens
and the ampersand with a hyphen" literally (in either order) turns
"Execution & Metrics" into "execution---metrics", which is not the slug
the code produces ("execution-metrics") and which no slug of the
questions endpoint's map matches. -/
theorem get_categories_slug_claim_counterexample :
    slug_of "Execution & Metrics" = "execution-metrics"
    ∧ py_replace (py_replace (py_lower "Execution & Metrics") " " "-") "&" "-"
      = "execution---metrics"
    ∧ py_replace (py_replace (py_lower "Execution & Metrics") "&" "-") " " "-"
      = "execution---metrics"
    ∧ category_map.lookup "execution---metrics" = none
    ∧ py_replace (py_replace (py_lower "Execution & Metrics") " " "-") "&" "-"
      ≠ slug_of "Execution & Metrics" := by
  refine ⟨?_, ?_, ?_, ?_, ?_⟩ <;> decide
